import Mathlib

set_option maxRecDepth 100000

/-!
Verification development for the perfana return-analytics core
(`perfana/core/returns.py` and `perfana/core/utils.py`).

The Python code is shallowly embedded: pandas series are lists of optional
rational values (a `none` entry models a missing observation, NaN), time
indexes are lists of natural numbers (day counts), exceptions become
`Except` errors, and the float power used by geometric annualization
becomes the real power `Real.rpow`.
-/

namespace Perfana

/-- Errors raised by the Python code, by exception class. -/
inductive PError
  | valueError (msg : String)
  | typeError (msg : String)
  | zeroDivisionError
  | timeIndexError
  | timeIndexMismatch (fa fb : String)
deriving DecidableEq, Repr

/-- A pandas column label: either a string or an integer. -/
inductive Label
  | str (s : String)
  | int (i : Int)
deriving DecidableEq, Repr

/-- ASCII lowercasing of one character, as Python's `str.lower` acts on
the ASCII labels used here. -/
def lowerChar (c : Char) : Char :=
  if 65 ≤ c.toNat ∧ c.toNat ≤ 90 then Char.ofNat (c.toNat + 32) else c

/-- ASCII lowercasing of a string (Python's `str.lower` on ASCII input). -/
def strLower (s : String) : String :=
  ⟨s.data.map lowerChar⟩

/-- Embedding of `freq_to_scale` from `perfana/core/utils.py`: maps a
frequency label (or a recognized synonym, case-insensitively) to the number
of periods per year; unknown labels raise `ValueError`. -/
def freq_to_scale (freq : String) : Except PError Nat :=
  let f := strLower freq
  if f = "d" ∨ f = "day" ∨ f = "daily" then .ok 252
  else if f = "w" ∨ f = "week" ∨ f = "weekly" then .ok 52
  else if f = "m" ∨ f = "month" ∨ f = "monthly" then .ok 12
  else if f = "s" ∨ f = "semi-annual" ∨ f = "semi-annually" then .ok 6
  else if f = "q" ∨ f = "quarter" ∨ f = "quarterly" then .ok 4
  else if f = "y" ∨ f = "year" ∨ f = "yearly" ∨ f = "annual" then .ok 1
  else .error (.valueError ("Unknown frequency: " ++ f))

/-- Consecutive gaps of a time index, in days: `data.index[1:] - data.index[:-1]`. -/
def gaps (idx : List Nat) : List Nat :=
  idx.zipWith (fun a b => b - a) idx.tail

/-- Number of gaps whose day count lies in `[lo, hi]`; models summing the
`value_counts` entries of the day values in that range. -/
def countIn (g : List Nat) (lo hi : Nat) : Nat :=
  (g.filter (fun d => lo ≤ d && d ≤ hi)).length

/-- The `delta` dictionary of `infer_frequency`, in insertion order: one
vote total per candidate periodicity. -/
def deltaList (idx : List Nat) : List (String × Nat) :=
  let g := gaps idx
  [("daily", countIn g 1 5),
   ("weekly", countIn g 7 7),
   ("monthly", countIn g 28 31),
   ("quarterly", countIn g 89 92),
   ("semi-annually", countIn g 180 184),
   ("yearly", countIn g 360 366)]

/-- One step of Python's `max(..., key=...)` fold: the accumulator is kept
on ties, so the first maximal element wins. -/
def pyMaxStep (best p : String × Nat) : String × Nat :=
  if best.2 < p.2 then p else best

/-- Python's `max` over a nonempty association list keyed by the value. -/
def pyMax (x : String × Nat) (xs : List (String × Nat)) : String × Nat :=
  xs.foldl pyMaxStep x

/-- The key of the maximal entry, as `max(delta, key=lambda k: delta[k])`. -/
def pyMaxKey : List (String × Nat) → String
  | [] => ""
  | x :: xs => (pyMax x xs).1

/-- The `for freq, count in delta.items()` scan of `infer_frequency`:
return the first periodicity whose vote count exceeds `0.85 * n` (the
exact-rational comparison `0.85 · n < count`, written cross-multiplied
over the naturals). -/
def scanThreshold (n : Nat) : List (String × Nat) → Option String
  | [] => none
  | p :: ps => if 85 * n < 100 * p.2 then some p.1 else scanThreshold n ps

/-- Embedding of `infer_frequency` from `perfana/core/utils.py` (the time
index is the list of timestamps in days; the data values are irrelevant).
`.ok (some f)` is a returned frequency, `.ok none` is the `None` returned
under the `ignore` policy, `.error` is a raised exception. -/
def infer_frequency (idx : List Nat) (failPolicy : String) : Except PError (Option String) :=
  let fp := strLower failPolicy
  if fp ≠ "ignore" ∧ fp ≠ "raise" then
    .error (.valueError ("Unknown <fail_policy>: " ++ fp ++ ". Use one of [ignore, raise]"))
  else
    let n := idx.length
    let d := deltaList idx
    if n < 30 then
      .ok (some (pyMaxKey d))
    else
      match scanThreshold n d with
      | some f => .ok (some f)
      | none =>
        if fp = "raise" then .error (.typeError "could not infer periodicity of time series index")
        else .ok none

/-- Modelled from the spec: the frequency accessor (`data.ppa.frequency`)
used by `_determine_frequency`; the accessor's own code is outside the
given sources. Per the spec's reconciler design, each side's frequency is
inferred independently and "may succeed or be absent", so inference runs
with the `ignore` failure policy and failure becomes absence. -/
def ppaFrequency (idx : List Nat) : Option String :=
  match infer_frequency idx "ignore" with
  | .ok f => f
  | .error _ => none

/-- Embedding of `_determine_frequency` from `perfana/core/returns.py`.
`fa` and `fb` are the two inferred frequencies (`ra.ppa.frequency` and
`rb.ppa.frequency`), `freq` the explicitly requested frequency. -/
def determine_frequency (fa fb : Option String) (freq : Option String) : Except PError String :=
  match freq with
  | some f => .ok f
  | none =>
    match fa, fb with
    | none, none => .error .timeIndexError
    | none, some f => .ok f
    | some f, none => .ok f
    | some f1, some f2 => if f1 ≠ f2 then .error (.timeIndexMismatch f1 f2) else .ok f1

/-- Pandas `(r + 1).prod()` over the cleaned values, computed exactly. -/
def prodOnePlus (xs : List ℚ) : ℚ :=
  (xs.map (fun x => 1 + x)).foldl (· * ·) 1

/-- Pandas `r.sum()` over the cleaned values. -/
def sumVals (xs : List ℚ) : ℚ :=
  xs.foldl (· + ·) 0

/-- Embedding of `annualized_returns` from `perfana/core/returns.py` for a
single series, with the frequency label already resolved (the optional
`freq=None` path delegates to the index accessor and is exercised through
`determine_frequency` by the callers modelled below). Missing observations
are `none`; the result `.ok none` is a NaN value, `.ok (some v)` a number,
`.error` a raised exception. -/
noncomputable def annualized_returns (r : List (Option ℚ)) (freq : String) (geometric : Bool) :
    Except PError (Option ℝ) := do
  let cleaned := r.filterMap id
  let scale ← freq_to_scale freq
  if geometric then
    if cleaned.length = 0 then
      .error .zeroDivisionError
    else
      .ok (some (((prodOnePlus cleaned : ℚ) : ℝ) ^ ((scale : ℝ) / (cleaned.length : ℝ)) - 1))
  else
    .ok (if cleaned.length = 0 then none
         else some (((sumVals cleaned : ℚ) : ℝ) / (cleaned.length : ℝ) * (scale : ℝ)))

/-- Pandas `DataFrame.dropna()`: keep only the rows with no missing entry. -/
def dropnaRows (rows : List (List (Option ℚ))) : List (List (Option ℚ)) :=
  rows.filter (fun row => row.all Option.isSome)

/-- Column `j` of a row-major table whose rows have no missing entries. -/
def colVals (rows : List (List (Option ℚ))) (j : Nat) : List ℚ :=
  rows.map (fun row => (row.getD j none).getD 0)

/-- Embedding of `annualized_returns` applied to a table of `w` columns,
given row-major: `dropna` removes whole rows, then the per-column product
(or mean) is taken over the common row count. One result per column. -/
noncomputable def annualized_returns_df (rows : List (List (Option ℚ))) (w : Nat)
    (freq : String) (geometric : Bool) : Except PError (List (Option ℝ)) := do
  let cleaned := dropnaRows rows
  let scale ← freq_to_scale freq
  let n := cleaned.length
  if geometric then
    if n = 0 then
      .error .zeroDivisionError
    else
      .ok ((List.range w).map (fun j =>
        some (((prodOnePlus (colVals cleaned j) : ℚ) : ℝ) ^ ((scale : ℝ) / (n : ℝ)) - 1)))
  else
    .ok ((List.range w).map (fun j =>
      if n = 0 then none
      else some (((sumVals (colVals cleaned j) : ℚ) : ℝ) / (n : ℝ) * (scale : ℝ))))

/-- Float subtraction with NaN propagation: `NaN - x = x - NaN = NaN`. -/
def subOpt (a b : Option ℝ) : Option ℝ :=
  match a, b with
  | some x, some y => some (x - y)
  | _, _ => none

/-- Embedding of `excess_returns` from `perfana/core/returns.py` for two
series carrying their time indexes. Both sides are `dropna`-ed, truncated
to the common length, the frequency reconciled, each side annualized
geometrically, and the two annual figures combined. -/
noncomputable def excess_returns (ra rb : List (Nat × Option ℚ)) (freq : Option String)
    (geometric : Bool) : Except PError (Option ℝ) := do
  let ca := ra.filter (fun p => p.2.isSome)
  let cb := rb.filter (fun p => p.2.isSome)
  let n := min ca.length cb.length
  let ta := ca.take n
  let tb := cb.take n
  let f ← determine_frequency (ppaFrequency (ta.map Prod.fst)) (ppaFrequency (tb.map Prod.fst)) freq
  let xa ← annualized_returns (ta.map Prod.snd) f true
  let xb ← annualized_returns (tb.map Prod.snd) f true
  match xa, xb with
  | some a, some b => .ok (some (if geometric then (a - b) / (1 + b) else a - b))
  | _, _ => .ok none

/-- Pandas `Series.dropna()` for an indexed series: keep the observations
whose value is present. -/
def dropnaS (r : List (Nat × Option ℚ)) : List (Nat × Option ℚ) :=
  r.filter (fun p => p.2.isSome)

/-- The spec's geometric annualized-return formula prod(1+r)^(scale/n) − 1
over a cleaned value list, named for stating the claims that compare the
code's annualization against the spec's words. -/
noncomputable def specGeomAnnualized (vals : List ℚ) (scale : Nat) : ℝ :=
  (((vals.map (fun x => 1 + x)).prod : ℚ) : ℝ) ^ ((scale : ℝ) / (vals.length : ℝ)) - 1

/-- A table: one shared time index and labelled columns of values aligned
to it positionally. -/
structure PyTable where
  idx : List Nat
  cols : List (Label × List (Option ℚ))
deriving DecidableEq, Repr

/-- The argument of a comparative metric: a bare series (with an optional
name) or a table. -/
inductive TSData
  | ser (name : Option Label) (idx : List Nat) (vals : List (Option ℚ))
  | frame (t : PyTable)
deriving DecidableEq, Repr

/-- Python's `name or default` under truthiness: `None`, the empty string
and the integer 0 are all falsy and replaced by the default. -/
def orName (name : Option Label) (dflt : String) : Label :=
  match name with
  | none => .str dflt
  | some (.str "") => .str dflt
  | some (.int 0) => .str dflt
  | some l => l

/-- Normalization of a bare series into a one-column table, as done by
`pd.DataFrame(ra.rename(ra.name or prefixes[0]))`. -/
def toTable : TSData → String → PyTable
  | .ser nm idx vals, dflt => ⟨idx, [(orName nm dflt, vals)]⟩
  | .frame t, _ => t

/-- Column-name synthesis in the pair loops: an integer label `i` becomes
`pfx_i`; a string label is kept as is. -/
def synthName (pfx : String) : Label → String
  | .str s => s
  | .int i => pfx ++ "_" ++ toString i

/-- The effectful column map of the Python `for` loops: the first raised
exception aborts the whole computation. -/
def mapE (f : α → Except PError β) : List α → Except PError (List β)
  | [] => .ok []
  | x :: xs => do
    let y ← f x
    let ys ← mapE f xs
    .ok (y :: ys)

/-- The object returned by a comparative metric: a bare series or a frame
of labelled columns. -/
inductive PdResult (ι α : Type)
  | ser (name : String) (data : List (ι × α))
  | frame (cols : List (String × List (ι × α)))

/-- True when the result is a bare series. -/
def PdResult.isSer : PdResult ι α → Bool
  | .ser _ _ => true
  | .frame _ => false

/-- True when the result is a frame (a table). -/
def PdResult.isFrame : PdResult ι α → Bool
  | .ser _ _ => false
  | .frame _ => true

/-- The column names of a result (a bare series contributes its name). -/
def PdResult.colNames : PdResult ι α → List String
  | .ser n _ => [n]
  | .frame cols => cols.map Prod.fst

/-- The row labels of each column of a result. -/
def PdResult.rowLabels : PdResult ι α → List (List ι)
  | .ser _ d => [d.map Prod.fst]
  | .frame cols => cols.map (fun c => c.2.map Prod.fst)

/-- Embedding of `active_premium` from `perfana/core/returns.py`. The
result frame has one column per asset column, whose rows are keyed by the
benchmark column names; it is always a frame, whatever the shape. -/
noncomputable def active_premium (ra rb : TSData) (freq : Option String) (geometric : Bool)
    (pfxA pfxB : String) : Except PError (PdResult String (Option ℝ)) := do
  let ta := toTable ra pfxA
  let tb := toTable rb pfxB
  let f ← determine_frequency (ppaFrequency ta.idx) (ppaFrequency tb.idx) freq
  let cols ← mapE (fun a => do
    let col ← mapE (fun b => do
      let xa ← annualized_returns a.2 f geometric
      let xb ← annualized_returns b.2 f geometric
      .ok (synthName pfxB b.1, subOpt xa xb)) tb.cols
    .ok (synthName pfxA a.1, col)) ta.cols
  .ok (.frame cols)

/-- Outer join of two series on their (sorted, duplicate-free) time
indexes, as `pd.merge(a, b, 'outer', left_index=True, right_index=True)`:
the row for a timestamp carries the value of each side when present. -/
def joinRows : List (Nat × Option ℚ) → List (Nat × Option ℚ) → List (Nat × Option ℚ × Option ℚ)
  | [], ys => ys.map (fun y => (y.1, none, y.2))
  | x :: xs, ys =>
    let small := ys.takeWhile (fun y => y.1 < x.1)
    let rest := ys.dropWhile (fun y => y.1 < x.1)
    small.map (fun y => (y.1, none, y.2)) ++
    match rest with
    | [] => (x.1, x.2, none) :: joinRows xs []
    | y :: ys2 =>
      if y.1 = x.1 then (x.1, x.2, y.2) :: joinRows xs ys2
      else (x.1, x.2, none) :: joinRows xs (y :: ys2)

/-- Rows surviving `dropna()` after the join: both values present. -/
def keptRows (a b : List (Nat × Option ℚ)) : List (Nat × ℚ × ℚ) :=
  (joinRows a b).filterMap (fun r =>
    match r with
    | (t, some x, some y) => some (t, x, y)
    | _ => none)

/-- Pandas `cumprod()`: running products of a list. -/
def cumprod : List ℚ → List ℚ
  | [] => []
  | x :: xs => x :: (cumprod xs).map (fun y => x * y)

/-- The per-pair computation inside `relative_returns`: outer-join the two
columns, drop incomplete rows, cumulate `(1 + r)` on each side and take
the ratio at every timestamp. -/
def pairRel (a b : List (Nat × Option ℚ)) : List (Nat × ℚ) :=
  let rows := keptRows a b
  let cpa := cumprod (rows.map (fun r => 1 + r.2.1))
  let cpb := cumprod (rows.map (fun r => 1 + r.2.2))
  (rows.map Prod.fst).zip (cpa.zipWith (· / ·) cpb)

/-- Sorted union of two sorted duplicate-free indexes. -/
def mergeIdx : List Nat → List Nat → List Nat
  | [], ys => ys
  | x :: xs, ys =>
    ys.takeWhile (fun y => y < x) ++
    x :: mergeIdx xs ((ys.dropWhile (fun y => y < x)).dropWhile (fun y => y = x))

/-- Reindex an association list of values onto a new index, filling the
missing timestamps with NaN. -/
def reindexOpt (idx : List Nat) (data : List (Nat × Option ℚ)) : List (Option ℚ) :=
  idx.map (fun t => (data.lookup t).join)

/-- One `pd.merge(res, rel, 'outer', ...)` step of the result-building
loop of `relative_returns`: the accumulated frame (index plus labelled
columns aligned to it) is outer-joined with the next pair series. -/
def mergeRes (acc : List Nat × List (String × List (Option ℚ))) (nm : String)
    (s : List (Nat × ℚ)) : List Nat × List (String × List (Option ℚ)) :=
  let newIdx := mergeIdx acc.1 (s.map Prod.fst)
  let oldCols := acc.2.map (fun c => (c.1, reindexOpt newIdx (acc.1.zip c.2)))
  (newIdx, oldCols ++ [(nm, newIdx.map (fun t => s.lookup t))])

/-- The final `res.shape[1] == 1` collapse of `relative_returns`: a
one-column accumulated frame is unwrapped into a bare series, anything
else stays a frame. -/
def finishRel (acc : List Nat × List (String × List (Option ℚ))) : PdResult Nat (Option ℚ) :=
  match acc.2 with
  | [c] => .ser c.1 (acc.1.zip c.2)
  | cols => .frame (cols.map (fun c => (c.1, acc.1.zip c.2)))

/-- Embedding of `relative_returns` from `perfana/core/returns.py`: every
(asset, benchmark) column pair yields one ratio series; the series are
outer-joined into one frame, returned as a bare series when it has exactly
one column. -/
def relative_returns (ra rb : TSData) (pfxA pfxB : String) : PdResult Nat (Option ℚ) :=
  let ta := toTable ra pfxA
  let tb := toTable rb pfxB
  finishRel (ta.cols.foldl (fun acc1 a =>
    tb.cols.foldl (fun acc2 b =>
      mergeRes acc2 (synthName pfxA a.1 ++ "/" ++ synthName pfxB b.1)
        (pairRel (ta.idx.zip a.2) (tb.idx.zip b.2))) acc1) ([], []))

/-- The periodicity `f` is the first entry of the vote list attaining the
maximal vote count: every earlier entry has strictly fewer votes and every
later entry at most as many. -/
def FirstMax (l : List (String × Nat)) (f : String) : Prop :=
  ∃ v l1 l2, l = l1 ++ (f, v) :: l2 ∧ (∀ p ∈ l1, p.2 < v) ∧ (∀ p ∈ l2, p.2 ≤ v)

/-- The 300 business-day index of the spec's daily example: 60 weeks of 5
consecutive days each, with weekend gaps between weeks. -/
def bd300 : List Nat :=
  (List.range 60).flatMap (fun w => (List.range 5).map (fun d => 7 * w + d))

/-- A 12-observation monthly index (gaps of 28 to 31 days). -/
def mon12 : List Nat :=
  [0, 31, 61, 92, 122, 153, 184, 215, 245, 276, 306, 337]

section Helpers

theorem foldl_mul_eq_prod (l : List ℚ) : ∀ a : ℚ, l.foldl (· * ·) a = a * l.prod := by
  induction l with
  | nil => intro a; simp
  | cons x xs ih => intro a; simp [List.foldl_cons, ih, mul_assoc]

theorem prodOnePlus_eq_prod (l : List ℚ) : prodOnePlus l = ((l.map (fun x => 1 + x)).prod : ℚ) := by
  simp [prodOnePlus, foldl_mul_eq_prod]

theorem foldl_add_eq_sum (l : List ℚ) : ∀ a : ℚ, l.foldl (· + ·) a = a + l.sum := by
  induction l with
  | nil => intro a; simp
  | cons x xs ih => intro a; simp [List.foldl_cons, ih, add_assoc]

theorem sumVals_eq_sum (l : List ℚ) : sumVals l = l.sum := by
  simp [sumVals, foldl_add_eq_sum]

theorem pyMax_firstMax : ∀ (xs : List (String × Nat)) (x : String × Nat),
    ∃ l1 l2, x :: xs = l1 ++ pyMax x xs :: l2 ∧
      (∀ p ∈ l1, p.2 < (pyMax x xs).2) ∧ (∀ p ∈ l2, p.2 ≤ (pyMax x xs).2) := by
  intro xs
  induction xs with
  | nil =>
    intro x
    exact ⟨[], [], rfl, by simp, by simp⟩
  | cons y ys ih =>
    intro x
    have hstep : pyMax x (y :: ys) = pyMax (pyMaxStep x y) ys := rfl
    obtain ⟨l1, l2, heq, hlt, hle⟩ := ih (pyMaxStep x y)
    by_cases hxy : x.2 < y.2
    · have hsy : pyMaxStep x y = y := by simp [pyMaxStep, hxy]
      rw [hsy] at heq hlt hle
      have hym : y.2 ≤ (pyMax y ys).2 := by
        cases l1 with
        | nil =>
          simp only [List.nil_append] at heq
          injection heq with h1 h2
          rw [← h1]
        | cons a t =>
          simp only [List.cons_append] at heq
          injection heq with h1 h2
          exact le_of_lt (hlt y (h1 ▸ List.mem_cons_self a t))
      refine ⟨x :: l1, l2, ?_, ?_, by rw [hstep, hsy]; exact hle⟩
      · rw [hstep, hsy, List.cons_append, ← heq]
      · intro p hp
        rw [hstep, hsy]
        rcases List.mem_cons.mp hp with hpx | hpl
        · exact hpx ▸ lt_of_lt_of_le hxy hym
        · exact hlt p hpl
    · have hsy : pyMaxStep x y = x := by simp [pyMaxStep, hxy]
      have hyx : y.2 ≤ x.2 := le_of_not_lt hxy
      rw [hsy] at heq hlt hle
      cases l1 with
      | nil =>
        simp only [List.nil_append] at heq
        injection heq with h1 h2
        refine ⟨[], y :: ys, ?_, by simp, ?_⟩
        · rw [hstep, hsy, ← h1, List.nil_append]
        · intro p hp
          rw [hstep, hsy]
          rcases List.mem_cons.mp hp with hpy | hpl
          · rw [hpy, ← h1]; exact hyx
          · exact hle p (h2 ▸ hpl)
      | cons a t =>
        simp only [List.cons_append] at heq
        injection heq with h1 h2
        have hxm : x.2 < (pyMax x ys).2 := hlt x (h1 ▸ List.mem_cons_self a t)
        refine ⟨x :: y :: t, l2, ?_, ?_, by rw [hstep, hsy]; exact hle⟩
        · rw [hstep, hsy]
          simp only [List.cons_append]
          rw [← h2]
        · intro p hp
          rw [hstep, hsy]
          rcases List.mem_cons.mp hp with hpx | hp2
          · exact hpx ▸ hxm
          · rcases List.mem_cons.mp hp2 with hpy | hpt
            · exact hpy ▸ lt_of_le_of_lt hyx hxm
            · exact hlt p (h1 ▸ List.mem_cons_of_mem a hpt)

theorem threshold_iff (n c : Nat) : (85 / 100 : ℚ) * (n : ℚ) < (c : ℚ) ↔ 85 * n < 100 * c := by
  rw [div_mul_eq_mul_div, div_lt_iff (by norm_num : (0 : ℚ) < 100)]
  constructor
  · intro h
    have h2 : ((85 * n : Nat) : ℚ) < ((100 * c : Nat) : ℚ) := by push_cast; linarith
    exact_mod_cast h2
  · intro h
    have h2 : ((85 * n : Nat) : ℚ) < ((100 * c : Nat) : ℚ) := by exact_mod_cast h
    push_cast at h2
    linarith

theorem findQ_eq_findN (n : Nat) (l : List (String × Nat)) :
    l.find? (fun p => decide ((85 / 100 : ℚ) * (n : ℚ) < (p.2 : ℚ)))
      = l.find? (fun p => decide (85 * n < 100 * p.2)) := by
  have hfun : (fun p : String × Nat => decide ((85 / 100 : ℚ) * (n : ℚ) < (p.2 : ℚ)))
      = fun p => decide (85 * n < 100 * p.2) := by
    funext p
    exact decide_eq_decide.mpr (threshold_iff n p.2)
  rw [hfun]

theorem scanThreshold_eq_find (n : Nat) (l : List (String × Nat)) :
    scanThreshold n l
      = (l.find? (fun p => decide ((85 / 100 : ℚ) * (n : ℚ) < (p.2 : ℚ)))).map Prod.fst := by
  rw [findQ_eq_findN]
  induction l with
  | nil => rfl
  | cons p ps ih =>
    by_cases h : 85 * n < 100 * p.2 <;>
      simp [scanThreshold, List.find?_cons, h, ih]

theorem except_bind_ok {ε α β : Type} (e : Except ε α) (f : α → Except ε β) (r : β)
    (h : e.bind f = .ok r) : ∃ x, e = .ok x ∧ f x = .ok r := by
  cases e with
  | error er => simp [Except.bind] at h
  | ok x => exact ⟨x, rfl, h⟩

theorem cumprod_length (l : List ℚ) : (cumprod l).length = l.length := by
  induction l with
  | nil => rfl
  | cons x xs ih => simp [cumprod, ih]

theorem cumprod_get? (l : List ℚ) : ∀ i : Nat, i < l.length →
    (cumprod l).get? i = some ((l.take (i + 1)).prod) := by
  induction l with
  | nil => intro i h; simp at h
  | cons x xs ih =>
    intro i h
    cases i with
    | zero => simp [cumprod]
    | succ j =>
      have hj : j < xs.length := by simpa using h
      rw [show cumprod (x :: xs) = x :: (cumprod xs).map (fun y => x * y) from rfl]
      rw [List.get?_cons_succ, List.get?_map, ih j hj]
      simp [List.take_succ_cons, List.prod_cons]

theorem filterMap_id_all_isSome (l : List (Option ℚ)) (h : ∀ x ∈ l, x.isSome) :
    (l.filterMap id).length = l.length := by
  induction l with
  | nil => rfl
  | cons x xs ih =>
    have htail : ∀ y ∈ xs, y.isSome := fun y hy => h y (List.mem_cons_of_mem x hy)
    have hx := h x (List.mem_cons_self x xs)
    obtain ⟨v, hv⟩ := Option.isSome_iff_exists.mp hx
    subst hv
    simp [List.filterMap_cons, ih htail]

theorem error_bind {α β : Type} (e : PError) (f : α → Except PError β) :
    ((Except.error e : Except PError α) >>= f) = Except.error e := rfl

theorem mapE_ok_map_proj {α β γ : Type} (f : α → Except PError β) (proj : β → γ) (g : α → γ)
    (hf : ∀ x y, f x = .ok y → proj y = g x) :
    ∀ (l : List α) (r : List β), mapE f l = .ok r → r.map proj = l.map g := by
  intro l
  induction l with
  | nil =>
    intro r h
    simp [mapE] at h
    simp [← h]
  | cons x xs ih =>
    intro r h
    simp only [mapE] at h
    obtain ⟨y, hy, h2⟩ := except_bind_ok _ _ _ h
    obtain ⟨ys, hys, h3⟩ := except_bind_ok _ _ _ h2
    simp only [Except.ok.injEq] at h3
    subst h3
    simp [List.map_cons, hf x y hy, ih ys hys]

theorem ok_bind {α β : Type} (x : α) (f : α → Except PError β) :
    (Except.ok x >>= f) = f x := rfl

theorem mergeRes_names (acc : List Nat × List (String × List (Option ℚ))) (nm : String)
    (s : List (Nat × ℚ)) : (mergeRes acc nm s).2.map Prod.fst = acc.2.map Prod.fst ++ [nm] := by
  simp [mergeRes]

theorem foldl_mergeRes_names (nmf : Label × List (Option ℚ) → String)
    (g : Label × List (Option ℚ) → List (Nat × ℚ)) :
    ∀ (bs : List (Label × List (Option ℚ))) (acc : List Nat × List (String × List (Option ℚ))),
      ((bs.foldl (fun acc2 b => mergeRes acc2 (nmf b) (g b)) acc).2).map Prod.fst
        = acc.2.map Prod.fst ++ bs.map nmf := by
  intro bs
  induction bs with
  | nil => intro acc; simp
  | cons b bs2 ih =>
    intro acc
    simp only [List.foldl_cons, List.map_cons]
    rw [ih, mergeRes_names, List.append_assoc]
    rfl

theorem foldl2_mergeRes_names
    (nm : Label × List (Option ℚ) → Label × List (Option ℚ) → String)
    (pr : Label × List (Option ℚ) → Label × List (Option ℚ) → List (Nat × ℚ))
    (bs : List (Label × List (Option ℚ))) :
    ∀ (as2 : List (Label × List (Option ℚ)))
      (acc : List Nat × List (String × List (Option ℚ))),
      ((as2.foldl (fun acc1 a =>
          bs.foldl (fun acc2 b => mergeRes acc2 (nm a b) (pr a b)) acc1) acc).2).map Prod.fst
        = acc.2.map Prod.fst ++ as2.flatMap (fun a => bs.map (nm a)) := by
  intro as2
  induction as2 with
  | nil => intro acc; simp
  | cons a as3 ih =>
    intro acc
    simp only [List.foldl_cons, List.flatMap_cons]
    rw [ih, foldl_mergeRes_names (nm a) (pr a) bs acc, List.append_assoc]

theorem finishRel_colNames (acc : List Nat × List (String × List (Option ℚ))) :
    (finishRel acc).colNames = acc.2.map Prod.fst := by
  obtain ⟨idx, cols⟩ := acc
  match cols with
  | [] => rfl
  | [c] => rfl
  | c1 :: c2 :: rest =>
    show ((c1 :: c2 :: rest).map (fun c => (c.1, idx.zip c.2))).map Prod.fst
        = (c1 :: c2 :: rest).map Prod.fst
    simp [List.map_map]

end Helpers

/-- The first-defined maximal entry of a nonempty vote list is exactly
what `pyMaxKey` (Python's `max` keyed on the votes) returns. -/
theorem firstMax_pyMaxKey (x : String × Nat) (xs : List (String × Nat)) :
    FirstMax (x :: xs) (pyMaxKey (x :: xs)) := by
  obtain ⟨l1, l2, heq, hlt, hle⟩ := pyMax_firstMax xs x
  refine ⟨(pyMax x xs).2, l1, l2, ?_, hlt, hle⟩
  simpa [pyMaxKey] using heq

/-- Claim C2: for n ≥ 30 observations, `infer_frequency` scans the
periodicities in the fixed order daily, weekly, monthly, quarterly,
semi-annually, yearly and returns the first whose gap-vote total exceeds
0.85·n; if none clears the threshold it raises the
frequency-not-inferable error under the `raise` policy and returns `None`
under `ignore`. -/
theorem claim2_infer_threshold (idx : List Nat) (policy : String)
    (h30 : 30 ≤ idx.length)
    (hp : strLower policy = "raise" ∨ strLower policy = "ignore") :
    (deltaList idx).map Prod.fst
        = ["daily", "weekly", "monthly", "quarterly", "semi-annually", "yearly"] ∧
    infer_frequency idx policy =
      match (deltaList idx).find?
          (fun p => decide ((85 / 100 : ℚ) * (idx.length : ℚ) < (p.2 : ℚ))) with
      | some p => .ok (some p.1)
      | none =>
        if strLower policy = "raise"
        then .error (.typeError "could not infer periodicity of time series index")
        else .ok none := by
  refine ⟨rfl, ?_⟩
  have hvalid : ¬ (strLower policy ≠ "ignore" ∧ strLower policy ≠ "raise") := by
    rcases hp with h | h <;> simp [h]
  have h30n : ¬ idx.length < 30 := by omega
  simp only [infer_frequency, if_neg hvalid, if_neg h30n, scanThreshold_eq_find]
  cases hfind : (deltaList idx).find?
      (fun p => decide ((85 / 100 : ℚ) * (idx.length : ℚ) < (p.2 : ℚ))) with
  | some p => simp
  | none =>
    rcases hp with h | h <;> simp [h]

/-- Witness for claim C2: the 300 business-day index clears the 85%
threshold for "daily" (299 votes against the threshold of 255). -/
theorem claim2_witness :
    30 ≤ bd300.length ∧ infer_frequency bd300 "raise" = .ok (some "daily") := by
  have h := claim2_infer_threshold bd300 "raise" (by decide) (Or.inl (by decide))
  refine ⟨by decide, h.2.trans ?_⟩
  rw [findQ_eq_findN]
  rfl

/-- Claim C3: for 2 ≤ n < 30 observations, `infer_frequency` returns the
periodicity whose day-count membership set matches the largest number of
gaps, ties broken by the enumeration order (the first-defined maximal
candidate wins); no 85% threshold is applied in this regime. -/
theorem claim3_infer_small (idx : List Nat) (policy : String)
    (h2 : 2 ≤ idx.length) (h30 : idx.length < 30)
    (hp : strLower policy = "raise" ∨ strLower policy = "ignore") :
    infer_frequency idx policy = .ok (some (pyMaxKey (deltaList idx))) ∧
    FirstMax (deltaList idx) (pyMaxKey (deltaList idx)) := by
  have hvalid : ¬ (strLower policy ≠ "ignore" ∧ strLower policy ≠ "raise") := by
    rcases hp with h | h <;> simp [h]
  refine ⟨?_, firstMax_pyMaxKey _ _⟩
  simp only [infer_frequency, if_neg hvalid, if_pos h30]

/-- Witness for claim C3: twelve monthly timestamps, where "monthly"
collects 11 of the 11 gap votes and wins with no threshold involved. -/
theorem claim3_witness :
    (2 ≤ mon12.length ∧ mon12.length < 30) ∧
    infer_frequency mon12 "raise" = .ok (some (pyMaxKey (deltaList mon12))) ∧
    FirstMax (deltaList mon12) (pyMaxKey (deltaList mon12)) ∧
    pyMaxKey (deltaList mon12) = "monthly" := by
  have h := claim3_infer_small mon12 "raise" (by decide) (by decide) (Or.inl (by decide))
  exact ⟨⟨by decide, by decide⟩, h.1, h.2, by decide⟩

/-- Claim C4 (code bug evaluation): for an input with fewer than 2
timestamps no consecutive gap exists, yet `infer_frequency` does not raise
the frequency-not-inferable error: the `n < 30` branch takes the maximum
over the all-zero vote totals and returns the first candidate, "daily" —
both for a single timestamp and for an empty index, under either failure
policy. -/
theorem claim4_small_index_returns_daily :
    infer_frequency [0] "raise" = .ok (some "daily") ∧
    infer_frequency [] "raise" = .ok (some "daily") ∧
    infer_frequency [0] "ignore" = .ok (some "daily") := by
  refine ⟨rfl, rfl, rfl⟩

/-- Claim C5: `_determine_frequency` returns an explicitly requested
frequency verbatim with no inference or conflict check; otherwise, with
both inferred frequencies absent it fails with the no-frequency error,
with exactly one present it returns the present one, with both present and
equal it returns that frequency, and with both present and unequal it
fails with a mismatch error carrying both conflicting values. -/
theorem claim5_determine_frequency (fa fb : Option String) (f g : String) :
    (∀ freq : String, determine_frequency fa fb (some freq) = .ok freq) ∧
    determine_frequency none none none = .error .timeIndexError ∧
    determine_frequency none (some f) none = .ok f ∧
    determine_frequency (some f) none none = .ok f ∧
    determine_frequency (some f) (some f) none = .ok f ∧
    (f ≠ g → determine_frequency (some f) (some g) none = .error (.timeIndexMismatch f g)) := by
  refine ⟨fun freq => ?_, rfl, rfl, rfl, ?_, fun h => ?_⟩
  · cases fa <;> cases fb <;> rfl
  · simp [determine_frequency]
  · simp [determine_frequency, h]

/-- Witness for claim C5 at concrete frequency labels. -/
theorem claim5_witness :
    determine_frequency (some "monthly") (some "quarterly") (some "yearly") = .ok "yearly" ∧
    determine_frequency none none none = .error .timeIndexError ∧
    determine_frequency none (some "monthly") none = .ok "monthly" ∧
    determine_frequency (some "monthly") none none = .ok "monthly" ∧
    determine_frequency (some "monthly") (some "monthly") none = .ok "monthly" ∧
    determine_frequency (some "monthly") (some "quarterly") none
      = .error (.timeIndexMismatch "monthly" "quarterly") := by
  have h := claim5_determine_frequency (some "monthly") (some "quarterly") "monthly" "quarterly"
  exact ⟨h.1 "yearly", h.2.1, h.2.2.1, h.2.2.2.1, h.2.2.2.2.1, h.2.2.2.2.2 (by decide)⟩

/-- Claim C1: `annualized_returns` first drops missing observations; with
n the post-drop count and scale the annualization factor of the label
(daily 252, weekly 52, monthly 12, quarterly 4, semi-annually 6, yearly 1)
it returns prod(1+r)^(scale/n) − 1 in geometric mode and mean(r)·scale in
arithmetic mode, computed independently per column for a table (one scalar
per column, over the rows that survive the row-wise drop). -/
theorem claim1_annualized_returns (r : List (Option ℚ)) (rows : List (List (Option ℚ)))
    (w : Nat) (freq : String) (scale : Nat)
    (hs : freq_to_scale freq = .ok scale)
    (hn : 0 < (r.filterMap id).length)
    (hrows : 0 < (dropnaRows rows).length) :
    (freq_to_scale "daily" = .ok 252 ∧ freq_to_scale "weekly" = .ok 52 ∧
     freq_to_scale "monthly" = .ok 12 ∧ freq_to_scale "quarterly" = .ok 4 ∧
     freq_to_scale "semi-annually" = .ok 6 ∧ freq_to_scale "yearly" = .ok 1) ∧
    annualized_returns r freq true
      = .ok (some (((((r.filterMap id).map (fun x => 1 + x)).prod : ℚ) : ℝ)
          ^ ((scale : ℝ) / ((r.filterMap id).length : ℝ)) - 1)) ∧
    annualized_returns r freq false
      = .ok (some ((((r.filterMap id).sum : ℚ) : ℝ)
          / ((r.filterMap id).length : ℝ) * (scale : ℝ))) ∧
    annualized_returns_df rows w freq true
      = .ok ((List.range w).map (fun j =>
          some (((((colVals (dropnaRows rows) j).map (fun x => 1 + x)).prod : ℚ) : ℝ)
            ^ ((scale : ℝ) / ((dropnaRows rows).length : ℝ)) - 1))) ∧
    annualized_returns_df rows w freq false
      = .ok ((List.range w).map (fun j =>
          some ((((colVals (dropnaRows rows) j).sum : ℚ) : ℝ)
            / ((dropnaRows rows).length : ℝ) * (scale : ℝ)))) := by
  have hne : ¬ ((r.filterMap id).length = 0) := by omega
  have hner : ¬ ((dropnaRows rows).length = 0) := by omega
  refine ⟨⟨rfl, rfl, rfl, rfl, rfl, rfl⟩, ?_, ?_, ?_, ?_⟩
  · simp only [annualized_returns, hs, ok_bind, if_true, if_neg hne,
      prodOnePlus_eq_prod]
  · simp only [annualized_returns, hs, ok_bind, Bool.false_eq_true, if_false, if_neg hne,
      sumVals_eq_sum]
  · simp only [annualized_returns_df, hs, ok_bind, if_true, if_neg hner,
      prodOnePlus_eq_prod]
  · simp only [annualized_returns_df, hs, ok_bind, Bool.false_eq_true, if_false, if_neg hner,
      sumVals_eq_sum]

/-- Witness for claim C1 at a concrete series and a concrete 1-column
table, each containing one missing observation, at monthly frequency. -/
theorem claim1_witness :
    annualized_returns [some (1 / 10), none] "monthly" true
      = .ok (some ((((([some (1 / 10), none].filterMap id).map (fun x => 1 + x)).prod : ℚ) : ℝ)
          ^ ((12 : ℝ) / (([some (1 / 10), none].filterMap id).length : ℝ)) - 1)) ∧
    annualized_returns [some (1 / 10), none] "monthly" false
      = .ok (some (((([some (1 / 10), none].filterMap id).sum : ℚ) : ℝ)
          / (([some (1 / 10), none].filterMap id).length : ℝ) * (12 : ℝ))) ∧
    annualized_returns_df [[some (1 / 10)], [none]] 1 "monthly" true
      = .ok ((List.range 1).map (fun j =>
          some (((((colVals (dropnaRows [[some (1 / 10)], [none]]) j).map
              (fun x => 1 + x)).prod : ℚ) : ℝ)
            ^ ((12 : ℝ) / ((dropnaRows [[some (1 / 10)], [none]]).length : ℝ)) - 1))) := by
  have h := claim1_annualized_returns [some (1 / 10), none] [[some (1 / 10)], [none]] 1
    "monthly" 12 rfl (by decide) (by decide)
  exact ⟨h.2.1, h.2.2.1, h.2.2.2.1⟩

/-- Claim C8 counterexample: on a series whose cleaned data is empty,
arithmetic-mode `annualized_returns` does not fail — pandas' mean of an
empty series is NaN, so the code returns a NaN value (here `.ok none`),
contradicting "fails in both modes / never returns a value when n = 0". -/
theorem claim8_counterexample :
    annualized_returns ([none, none] : List (Option ℚ)) "monthly" false = .ok none := rfl

/-- Claim C8 as amended: with a recognized frequency label and an empty
cleaned series, geometric mode fails (the `scale / len(r)` exponent raises
ZeroDivisionError), while arithmetic mode returns NaN (a missing value,
not an error). -/
theorem claim8_empty_cleaned (r : List (Option ℚ)) (freq : String) (scale : Nat)
    (hs : freq_to_scale freq = .ok scale) (he : r.filterMap id = []) :
    annualized_returns r freq true = .error .zeroDivisionError ∧
    annualized_returns r freq false = .ok none := by
  have hz : (r.filterMap id).length = 0 := by rw [he]; rfl
  constructor
  · simp only [annualized_returns, hs, ok_bind, if_true, if_pos hz]
  · simp only [annualized_returns, hs, ok_bind, Bool.false_eq_true, if_false, if_pos hz]

/-- Witness for the amended claim C8 on an all-missing series. -/
theorem claim8_witness :
    freq_to_scale "daily" = .ok 252 ∧
    ([none] : List (Option ℚ)).filterMap id = [] ∧
    annualized_returns ([none] : List (Option ℚ)) "daily" true = .error .zeroDivisionError ∧
    annualized_returns ([none] : List (Option ℚ)) "daily" false = .ok none := by
  have h := claim8_empty_cleaned [none] "daily" 252 rfl rfl
  exact ⟨rfl, rfl, h.1, h.2⟩

/-- Claim C6: `excess_returns` drops missing observations, truncates both
sides to the earliest min(len_a, len_b) observations by position, then
annualizes each side geometrically regardless of the `geometric` flag, and
combines as (Ra − Rb)/(1 + Rb) when `geometric` is true and Ra − Rb when
false; the cleaned count entering each side's formula is the common
truncated length n. -/
theorem claim6_excess_returns (ra rb : List (Nat × Option ℚ)) (freqOpt : Option String)
    (geometric : Bool) (f : String) (scale : Nat) (n : Nat)
    (ta tb : List (Nat × Option ℚ))
    (hn : n = min (dropnaS ra).length (dropnaS rb).length)
    (hta : ta = (dropnaS ra).take n)
    (htb : tb = (dropnaS rb).take n)
    (hf : determine_frequency (ppaFrequency (ta.map Prod.fst)) (ppaFrequency (tb.map Prod.fst))
        freqOpt = .ok f)
    (hs : freq_to_scale f = .ok scale)
    (h0 : 0 < n) :
    ((ta.map Prod.snd).filterMap id).length = n ∧
    ((tb.map Prod.snd).filterMap id).length = n ∧
    excess_returns ra rb freqOpt geometric
      = .ok (some (
          if geometric then
            (specGeomAnnualized ((ta.map Prod.snd).filterMap id) scale
              - specGeomAnnualized ((tb.map Prod.snd).filterMap id) scale)
            / (1 + specGeomAnnualized ((tb.map Prod.snd).filterMap id) scale)
          else
            specGeomAnnualized ((ta.map Prod.snd).filterMap id) scale
              - specGeomAnnualized ((tb.map Prod.snd).filterMap id) scale)) := by
  have hlen : ∀ (r : List (Nat × Option ℚ)) (t : List (Nat × Option ℚ)),
      t = (dropnaS r).take n → ((t.map Prod.snd).filterMap id).length = t.length := by
    intro r t ht
    have hall : ∀ x ∈ t.map Prod.snd, x.isSome := by
      intro x hx
      obtain ⟨p, hp, hpx⟩ := List.mem_map.mp hx
      have hpd : p ∈ dropnaS r := by
        rw [ht] at hp
        exact List.take_subset n (dropnaS r) hp
      have := (List.mem_filter.mp hpd).2
      rw [← hpx]
      exact this
    rw [filterMap_id_all_isSome _ hall, List.length_map]
  have htake : ∀ (r : List (Nat × Option ℚ)), n ≤ (dropnaS r).length →
      ((dropnaS r).take n).length = n := by
    intro r h
    rw [List.length_take]
    omega
  have hna : n ≤ (dropnaS ra).length := by omega
  have hnb : n ≤ (dropnaS rb).length := by omega
  have hlena : ((ta.map Prod.snd).filterMap id).length = n := by
    rw [hlen ra ta hta, hta, htake ra hna]
  have hlenb : ((tb.map Prod.snd).filterMap id).length = n := by
    rw [hlen rb tb htb, htb, htake rb hnb]
  refine ⟨hlena, hlenb, ?_⟩
  have hnea : ¬ ((ta.map Prod.snd).filterMap id).length = 0 := by omega
  have hneb : ¬ ((tb.map Prod.snd).filterMap id).length = 0 := by omega
  subst hta htb hn
  simp only [excess_returns, dropnaS] at hf ⊢
  rw [hf, ok_bind]
  simp only [annualized_returns, hs, ok_bind, if_true]
  simp only [dropnaS] at hnea hneb
  rw [if_neg hnea, if_neg hneb]
  simp only [ok_bind, specGeomAnnualized, prodOnePlus_eq_prod]

/-- Witness for claim C6 on one-observation series with an explicitly
requested yearly frequency; the geometric combination evaluates to the
spec's example value (0.10 − 0.05)/(1 + 0.05) = 1/21. -/
theorem claim6_witness :
    (([((0 : Nat), some ((1 : ℚ) / 10))].map Prod.snd).filterMap id).length = 1 ∧
    excess_returns [((0 : Nat), some ((1 : ℚ) / 10))] [((0 : Nat), some ((1 : ℚ) / 20))]
        (some "yearly") true
      = .ok (some (
          (specGeomAnnualized (([((0 : Nat), some ((1 : ℚ) / 10))].map Prod.snd).filterMap id) 1
            - specGeomAnnualized (([((0 : Nat), some ((1 : ℚ) / 20))].map Prod.snd).filterMap id) 1)
          / (1 + specGeomAnnualized
              (([((0 : Nat), some ((1 : ℚ) / 20))].map Prod.snd).filterMap id) 1))) ∧
    excess_returns [((0 : Nat), some ((1 : ℚ) / 10))] [((0 : Nat), some ((1 : ℚ) / 20))]
        (some "yearly") true
      = .ok (some (((1 / 10 : ℝ) - 1 / 20) / (1 + 1 / 20))) := by
  have h := claim6_excess_returns [((0 : Nat), some ((1 : ℚ) / 10))]
    [((0 : Nat), some ((1 : ℚ) / 20))] (some "yearly") true "yearly" 1 1
    [((0 : Nat), some ((1 : ℚ) / 10))] [((0 : Nat), some ((1 : ℚ) / 20))]
    rfl rfl rfl rfl rfl (by decide)
  have hval : ∀ q : ℚ, specGeomAnnualized [q] 1 = (q : ℝ) := by
    intro q
    simp [specGeomAnnualized, Real.rpow_one]
  refine ⟨h.1, ?_, ?_⟩
  · simpa using h.2.2
  · have h2 := h.2.2
    simp only [if_true] at h2
    rw [h2]
    have ha : (([((0 : Nat), some ((1 : ℚ) / 10))].map Prod.snd).filterMap id) = [(1 : ℚ) / 10] := rfl
    have hb : (([((0 : Nat), some ((1 : ℚ) / 20))].map Prod.snd).filterMap id) = [(1 : ℚ) / 20] := rfl
    rw [ha, hb, hval, hval]
    norm_num

/-- Claim C7: each (asset, benchmark) pair of `relative_returns` is
outer-joined on timestamp, rows with a missing value are dropped, and the
value at the i-th surviving timestamp is the ratio of the cumulative
products of (1 + r) of the two sides over the rows up to and including it
— a time series; in particular, when both series start at the same
timestamp with a 0 return, the first ratio is 1. -/
theorem claim7_relative_pair (a b : List (Nat × Option ℚ)) (i : Nat)
    (h : i < (keptRows a b).length) :
    ((pairRel a b).get? i
      = some (((keptRows a b).get ⟨i, h⟩).1,
          (((keptRows a b).take (i + 1)).map (fun r => 1 + r.2.1)).prod
            / (((keptRows a b).take (i + 1)).map (fun r => 1 + r.2.2)).prod)) ∧
    ∀ (t : Nat) (va vb : List (Nat × Option ℚ)),
      (pairRel ((t, some 0) :: va) ((t, some 0) :: vb)).head? = some (t, 1) := by
  constructor
  · show (((keptRows a b).map Prod.fst).zip _).get? i = _
    rw [List.get?_zip_eq_some]
    constructor
    · rw [List.get?_map, List.get?_eq_get h]
      rfl
    · rw [List.get?_zipWith_eq_some]
      refine ⟨(((keptRows a b).take (i + 1)).map (fun r => 1 + r.2.1)).prod,
        (((keptRows a b).take (i + 1)).map (fun r => 1 + r.2.2)).prod, ?_, ?_, rfl⟩
      · rw [cumprod_get? _ i (by simpa using h), ← List.map_take]
      · rw [cumprod_get? _ i (by simpa using h), ← List.map_take]
  · intro t va vb
    have hkept : keptRows ((t, some 0) :: va) ((t, some 0) :: vb)
        = (t, 0, 0) :: keptRows va vb := by
      simp [keptRows, joinRows]
    simp [pairRel, hkept, cumprod]

/-- Witness for claim C7 at two concrete two-point series: the second
ratio is the quotient of the two cumulative products, and the first ratio
of two series starting with 0 returns is 1. -/
theorem claim7_witness :
    1 < (keptRows [((0 : Nat), some (0 : ℚ)), (1, some (1 / 10))]
        [((0 : Nat), some (0 : ℚ)), (1, some (1 / 20))]).length ∧
    (pairRel [((0 : Nat), some (0 : ℚ)), (1, some (1 / 10))]
        [((0 : Nat), some (0 : ℚ)), (1, some (1 / 20))]).get? 1
      = some ((1 : Nat),
          (((keptRows [((0 : Nat), some (0 : ℚ)), (1, some (1 / 10))]
              [((0 : Nat), some (0 : ℚ)), (1, some (1 / 20))]).take 2).map
                (fun r => 1 + r.2.1)).prod
            / (((keptRows [((0 : Nat), some (0 : ℚ)), (1, some (1 / 10))]
              [((0 : Nat), some (0 : ℚ)), (1, some (1 / 20))]).take 2).map
                (fun r => 1 + r.2.2)).prod) ∧
    (pairRel [((5 : Nat), some (0 : ℚ))] [((5 : Nat), some (0 : ℚ))]).head? = some (5, 1) := by
  have h := claim7_relative_pair [((0 : Nat), some (0 : ℚ)), (1, some (1 / 10))]
    [((0 : Nat), some (0 : ℚ)), (1, some (1 / 20))] 1 (by decide)
  exact ⟨by decide, h.1.trans (by rfl), h.2 5 [] []⟩

/-- Claim C9 counterexample: `active_premium` compared on exactly one
asset column and one benchmark column does NOT return a bare series — the
code has no collapse step and returns a 1×1 frame (DataFrame). -/
theorem claim9_counterexample :
    (active_premium (.ser (some (.str "A")) [0] [some ((1 : ℚ) / 10)])
        (.ser (some (.str "B")) [0] [some ((1 : ℚ) / 20)])
        (some "yearly") false "AST" "BMK").map PdResult.isSer = .ok false := rfl

/-- Claim C9 as amended: `relative_returns` collapses to a bare series
when exactly one asset column meets exactly one benchmark column (both for
bare-series inputs and for one-column tables), while `active_premium`
always returns a frame — its result is never a bare series, not even 1×1. -/
theorem claim9_amended :
    (∀ (nma nmb : Option Label) (ia ib : List Nat) (va vb : List (Option ℚ)) (pa pb : String),
      (relative_returns (.ser nma ia va) (.ser nmb ib vb) pa pb).isSer = true) ∧
    (∀ (ia : List Nat) (na : Label) (va : List (Option ℚ)) (ib : List Nat) (nb : Label)
        (vb : List (Option ℚ)) (pa pb : String),
      (relative_returns (.frame ⟨ia, [(na, va)]⟩) (.frame ⟨ib, [(nb, vb)]⟩) pa pb).isSer
        = true) ∧
    (∀ (ra rb : TSData) (freq : Option String) (geometric : Bool) (pa pb : String),
      (active_premium ra rb freq geometric pa pb).map PdResult.isFrame ≠ .ok false) := by
  refine ⟨fun nma nmb ia ib va vb pa pb => rfl, fun ia na va ib nb vb pa pb => rfl, ?_⟩
  intro ra rb freq geometric pa pb
  simp only [active_premium]
  cases hd : determine_frequency (ppaFrequency (toTable ra pa).idx)
      (ppaFrequency (toTable rb pb).idx) freq with
  | error e =>
    rw [error_bind]
    intro hcon
    exact Except.noConfusion hcon
  | ok f =>
    rw [ok_bind]
    cases hm : mapE (fun a => do
        let col ← mapE (fun b => do
          let xa ← annualized_returns a.2 f geometric
          let xb ← annualized_returns b.2 f geometric
          Except.ok (synthName pb b.1, subOpt xa xb)) (toTable rb pb).cols
        Except.ok (synthName pa a.1, col)) (toTable ra pa).cols with
    | error e =>
      rw [error_bind]
      intro hcon
      exact Except.noConfusion hcon
    | ok cols =>
      rw [ok_bind]
      intro hcon
      have : PdResult.isFrame (PdResult.frame cols) = false := by
        exact Except.ok.inj hcon
      exact Bool.noConfusion this

/-- Witness for the amended claim C9 at concrete one-column inputs. -/
theorem claim9_witness :
    (relative_returns (.ser (some (.str "C")) [0] [some (0 : ℚ)])
        (.ser (some (.str "D")) [0] [some (0 : ℚ)]) "AST" "BMK").isSer = true ∧
    (active_premium (.ser (some (.str "C")) [0] [some (0 : ℚ)])
        (.ser (some (.str "D")) [0] [some (0 : ℚ)])
        (some "monthly") true "AST" "BMK").map PdResult.isFrame ≠ .ok false :=
  ⟨claim9_amended.1 (some (.str "C")) (some (.str "D")) [0] [0]
      [some (0 : ℚ)] [some (0 : ℚ)] "AST" "BMK",
   claim9_amended.2.2 (.ser (some (.str "C")) [0] [some (0 : ℚ)])
      (.ser (some (.str "D")) [0] [some (0 : ℚ)]) (some "monthly") true "AST" "BMK"⟩

/-- Claim C10 counterexample: an unnamed asset series does not appear
under `{asset_prefix}_{position}` (which would be "AST_0") — the
normalization `ra.rename(ra.name or prefixes[0])` gives it the bare
prefix "AST", with no position suffix. -/
theorem claim10_counterexample :
    (active_premium (.ser none [0] [some ((1 : ℚ) / 10)])
        (.ser (some (.str "B")) [0] [some ((1 : ℚ) / 20)])
        (some "yearly") false "AST" "BMK").map PdResult.colNames = .ok ["AST"] ∧
    "AST" ≠ "AST_0" := ⟨rfl, by decide⟩

/-- Claim C10 as amended: an integer-labelled column appears under
`{prefix}_{label}` where label is its integer column label (equal to the
position for default-numbered columns); a string-labelled column keeps its
name; an unnamed bare series is normalized to the bare prefix (no position
suffix), the empty-string and integer-0 names being falsy in Python's
`name or prefix` as well; `active_premium` column names come from the
asset table and its row labels from the benchmark table; and
`relative_returns` names each pair column `{asset_name}/{benchmark_name}`. -/
theorem claim10_amended :
    (∀ (nm : Option Label) (idx : List Nat) (vals : List (Option ℚ)) (pfx : String),
      toTable (.ser nm idx vals) pfx = ⟨idx, [(orName nm pfx, vals)]⟩) ∧
    (∀ pfx : String, orName none pfx = .str pfx ∧ orName (some (.str "")) pfx = .str pfx ∧
      orName (some (.int 0)) pfx = .str pfx) ∧
    (∀ (pfx s : String) (i : Int), synthName pfx (.str s) = s ∧
      synthName pfx (.int i) = pfx ++ "_" ++ toString i) ∧
    (∀ (ta tb : PyTable) (freq : Option String) (geometric : Bool) (pa pb : String),
      (∃ e, active_premium (.frame ta) (.frame tb) freq geometric pa pb = .error e) ∨
      (active_premium (.frame ta) (.frame tb) freq geometric pa pb).map
          (fun r => (r.colNames, r.rowLabels))
        = .ok (ta.cols.map (fun c => synthName pa c.1),
               ta.cols.map (fun _ => tb.cols.map (fun c => synthName pb c.1)))) ∧
    (∀ (ta tb : PyTable) (pa pb : String),
      (relative_returns (.frame ta) (.frame tb) pa pb).colNames
        = ta.cols.flatMap (fun a => tb.cols.map (fun b =>
            synthName pa a.1 ++ "/" ++ synthName pb b.1))) := by
  refine ⟨fun nm idx vals pfx => rfl, fun pfx => ⟨rfl, rfl, rfl⟩,
    fun pfx s i => ⟨rfl, rfl⟩, ?_, ?_⟩
  · intro ta tb freq geometric pa pb
    simp only [active_premium, toTable]
    cases hd : determine_frequency (ppaFrequency ta.idx) (ppaFrequency tb.idx) freq with
    | error e =>
      left
      exact ⟨e, by rw [error_bind]⟩
    | ok f =>
      rw [ok_bind]
      cases hm : mapE (fun a => do
          let col ← mapE (fun b => do
            let xa ← annualized_returns a.2 f geometric
            let xb ← annualized_returns b.2 f geometric
            Except.ok (synthName pb b.1, subOpt xa xb)) tb.cols
          Except.ok (synthName pa a.1, col)) ta.cols with
      | error e =>
        left
        exact ⟨e, by rw [error_bind]⟩
      | ok cols =>
        rw [ok_bind]
        right
        have hfInner : ∀ (x b : Label × List (Option ℚ)) (z : String × Option ℝ), (do
            let xa ← annualized_returns x.2 f geometric
            let xb ← annualized_returns b.2 f geometric
            Except.ok (synthName pb b.1, subOpt xa xb) : Except PError (String × Option ℝ))
              = .ok z → z.1 = synthName pb b.1 := by
          intro x b z hbz
          obtain ⟨xa, hxa, h2⟩ := except_bind_ok _ _ _ hbz
          obtain ⟨xb, hxb, h3⟩ := except_bind_ok _ _ _ h2
          rw [(Except.ok.inj h3).symm]
        have hf1 : ∀ (x : Label × List (Option ℚ)) (y : String × List (String × Option ℝ)), (do
            let col ← mapE (fun b => do
              let xa ← annualized_returns x.2 f geometric
              let xb ← annualized_returns b.2 f geometric
              Except.ok (synthName pb b.1, subOpt xa xb)) tb.cols
            Except.ok (synthName pa x.1, col) : Except PError (String × List (String × Option ℝ)))
              = .ok y → y.1 = synthName pa x.1 := by
          intro x y hxy
          obtain ⟨col, hcol, h2⟩ := except_bind_ok _ _ _ hxy
          rw [(Except.ok.inj h2).symm]
        have hf2 : ∀ (x : Label × List (Option ℚ)) (y : String × List (String × Option ℝ)), (do
            let col ← mapE (fun b => do
              let xa ← annualized_returns x.2 f geometric
              let xb ← annualized_returns b.2 f geometric
              Except.ok (synthName pb b.1, subOpt xa xb)) tb.cols
            Except.ok (synthName pa x.1, col) : Except PError (String × List (String × Option ℝ)))
              = .ok y → y.2.map Prod.fst = tb.cols.map (fun c => synthName pb c.1) := by
          intro x y hxy
          obtain ⟨col, hcol, h2⟩ := except_bind_ok _ _ _ hxy
          rw [(Except.ok.inj h2).symm]
          exact mapE_ok_map_proj _ Prod.fst (fun c => synthName pb c.1) (hfInner x) tb.cols col hcol
        have hnames := mapE_ok_map_proj _ Prod.fst (fun c => synthName pa c.1) hf1 ta.cols cols hm
        have hrows := mapE_ok_map_proj _ (fun y => y.2.map Prod.fst)
          (fun _ => tb.cols.map (fun c => synthName pb c.1)) hf2 ta.cols cols hm
        show Except.ok ((PdResult.frame cols).colNames, (PdResult.frame cols).rowLabels) = _
        simp only [PdResult.colNames, PdResult.rowLabels]
        rw [hnames, hrows]
  · intro ta tb pa pb
    simp only [relative_returns, toTable]
    rw [finishRel_colNames]
    have h := foldl2_mergeRes_names
      (fun a b => synthName pa a.1 ++ "/" ++ synthName pb b.1)
      (fun a b => pairRel (ta.idx.zip a.2) (tb.idx.zip b.2))
      tb.cols ta.cols ([], [])
    simpa using h

/-- Witness for the amended claim C10 at concrete integer- and
string-labelled tables. -/
theorem claim10_witness :
    toTable (.ser none [0] [some (0 : ℚ)]) "PFX"
      = ⟨[0], [(orName none "PFX", [some (0 : ℚ)])]⟩ ∧
    synthName "BMK" (.int 3) = "BMK" ++ "_" ++ toString (3 : Int) ∧
    ((∃ e, active_premium (.frame ⟨[0], [(.int 3, [some (0 : ℚ)])]⟩)
        (.frame ⟨[0], [(.str "E", [some (0 : ℚ)])]⟩)
        (some "monthly") true "AST" "BMK" = .error e) ∨
      (active_premium (.frame ⟨[0], [(.int 3, [some (0 : ℚ)])]⟩)
          (.frame ⟨[0], [(.str "E", [some (0 : ℚ)])]⟩)
          (some "monthly") true "AST" "BMK").map (fun r => (r.colNames, r.rowLabels))
        = .ok ([(Label.int 3, [some (0 : ℚ)])].map (fun c => synthName "AST" c.1),
               [(Label.int 3, [some (0 : ℚ)])].map
                 (fun _ => [(Label.str "E", [some (0 : ℚ)])].map
                   (fun c => synthName "BMK" c.1)))) ∧
    (relative_returns (.frame ⟨[0], [(.int 3, [some (0 : ℚ)])]⟩)
        (.frame ⟨[0], [(.str "E", [some (0 : ℚ)])]⟩) "AST" "BMK").colNames
      = [(Label.int 3, [some (0 : ℚ)])].flatMap
          (fun a => [(Label.str "E", [some (0 : ℚ)])].map
            (fun b => synthName "AST" a.1 ++ "/" ++ synthName "BMK" b.1)) :=
  ⟨claim10_amended.1 none [0] [some (0 : ℚ)] "PFX",
   (claim10_amended.2.2.1 "BMK" "" 3).2,
   claim10_amended.2.2.2.1 ⟨[0], [(.int 3, [some (0 : ℚ)])]⟩
     ⟨[0], [(.str "E", [some (0 : ℚ)])]⟩ (some "monthly") true "AST" "BMK",
   claim10_amended.2.2.2.2 ⟨[0], [(.int 3, [some (0 : ℚ)])]⟩
     ⟨[0], [(.str "E", [some (0 : ℚ)])]⟩ "AST" "BMK"⟩

end Perfana
